import Mathlib

/-!
Verification development for the msgmodel OpenAI provider
(`msgmodel/providers/openai.py`) and the v3.2.1 request-signing feature.

The Python code is shallowly embedded: JSON values become an inductive
type, dictionaries become association lists, byte strings become
`List Nat`, and the streaming HTTP loop becomes a total function over the
list of raw lines delivered by the transport.
-/

namespace MsgModel

/-- JSON values as produced / consumed by the provider.  An integer
literal becomes `num`; a fractional/exponent literal becomes `fnum m e`
denoting the decimal `m * 10 ^ e` (kept exact, so zero-ness — the only
arithmetic fact the provider ever consults, via truthiness — can be
decided exactly against Python's binary64 underflow behaviour); the
non-finite constants `NaN`/`Infinity`/`-Infinity` accepted by
`json.loads` become `nonfinite` (all three truthy). -/
inductive Json where
  | null
  | bool (b : Bool)
  | num (n : Int)
  | fnum (m : Int) (e : Int)
  | nonfinite (s : String)
  | str (s : String)
  | arr (xs : List Json)
  | obj (fields : List (String × Json))

/-- First-match association-list lookup: the model of a Python dict
access (dict keys are unique, so first match is the match). -/
def assocLookup {α : Type} : List (String × α) → String → Option α
  | [], _ => none
  | (k, v) :: rest, key => if k = key then some v else assocLookup rest key

/-- `d.get(key)` on a JSON object; `none` for non-objects. -/
def jsonGet? : Json → String → Option Json
  | .obj fields, key => assocLookup fields key
  | _, _ => none

/-- Decimal digit count (fuelled; one digit per step). -/
def digitCountAux : Nat → Nat → Nat
  | 0, _ => 0
  | fuel + 1, n => if n < 10 then 1 else digitCountAux fuel (n / 10) + 1

def digitCount (n : Nat) : Nat := digitCountAux (n + 1) n

/-- Truthiness of the Python float that `float("<m>e<e>")` produces:
false exactly when the value is zero, i.e. when the mantissa is zero or
the magnitude underflows binary64 (at most the tie `2^-1075`, which
rounds to even, that is to zero).  The digit-count shortcut keeps the
exact comparison to exponents near the subnormal boundary. -/
def floatTruthy (m e : Int) : Bool :=
  if m = 0 then false
  else
    let d : Int := (digitCount m.natAbs : Int)
    if -322 ≤ d + e then true
    else if d + e ≤ -326 then false
    else decide (m.natAbs * 2 ^ 1075 > 10 ^ (-e).toNat)

/-- Python truthiness of a JSON value (`if x:`). -/
def truthy : Json → Bool
  | .null => false
  | .bool b => b
  | .num n => n != 0
  | .fnum m e => floatTruthy m e
  | .nonfinite _ => true
  | .str s => s != ""
  | .arr xs => !xs.isEmpty
  | .obj fields => !fields.isEmpty

/-- `isinstance(x, dict)`. -/
def Json.isObj : Json → Bool
  | .obj _ => true
  | _ => false

/-- `isinstance(x, str)`. -/
def Json.isStr : Json → Bool
  | .str _ => true
  | _ => false

/-! ### Python string primitives used by the provider -/

/-- Python `str.startswith`, modelled on the character list. -/
def pyStartsWith (s p : String) : Bool := p.data.isPrefixOf s.data

/-- Python `s[n:]`. -/
def pyDrop (s : String) (n : Nat) : String := String.mk (s.data.drop n)

/-- The whitespace stripped by Python `str.strip()`: precisely the code
points CPython's `Py_UNICODE_ISSPACE` accepts (ASCII whitespace, the
information separators 1C-1F, NEL, NBSP, Ogham space, the U+2000 block,
line/paragraph separators, narrow no-break, medium mathematical, and
ideographic space). -/
def pyWs (c : Char) : Bool :=
  ('\x09' ≤ c && c ≤ '\x0d') || ('\x1c' ≤ c && c ≤ '\x20') ||
  c == '\x85' || c == '\xa0' || c == '\u1680' ||
  ('\u2000' ≤ c && c ≤ '\u200a') || c == '\u2028' || c == '\u2029' ||
  c == '\u202f' || c == '\u205f' || c == '\u3000'

/-- Python `str.strip()`. -/
def pyStrip (s : String) : String :=
  String.mk (((s.data.dropWhile pyWs).reverse.dropWhile pyWs).reverse)

/-! ### Strict UTF-8 decoding (`bytes.decode("utf-8")`) -/

def isCont (b : Nat) : Bool := 0x80 ≤ b && b ≤ 0xBF

/-- Strict UTF-8 decoder over bytes; `none` mirrors Python raising
`UnicodeDecodeError`.  Continuation-byte ranges follow RFC 3629 (no
overlong forms, no surrogates, max U+10FFFF), as CPython enforces. -/
def utf8Aux : List Nat → Option (List Char)
  | [] => some []
  | b :: rest =>
    if b < 0x80 then
      (utf8Aux rest).map (fun cs => Char.ofNat b :: cs)
    else if 0xC2 ≤ b && b ≤ 0xDF then
      match rest with
      | b2 :: r2 =>
        if isCont b2 then
          (utf8Aux r2).map (fun cs => Char.ofNat ((b - 0xC0) * 64 + (b2 - 0x80)) :: cs)
        else none
      | [] => none
    else if 0xE0 ≤ b && b ≤ 0xEF then
      match rest with
      | b2 :: b3 :: r3 =>
        let okB2 : Bool :=
          if b = 0xE0 then 0xA0 ≤ b2 && b2 ≤ 0xBF
          else if b = 0xED then 0x80 ≤ b2 && b2 ≤ 0x9F
          else isCont b2
        if okB2 && isCont b3 then
          (utf8Aux r3).map (fun cs =>
            Char.ofNat (((b - 0xE0) * 64 + (b2 - 0x80)) * 64 + (b3 - 0x80)) :: cs)
        else none
      | _ => none
    else if 0xF0 ≤ b && b ≤ 0xF4 then
      match rest with
      | b2 :: b3 :: b4 :: r4 =>
        let okB2 : Bool :=
          if b = 0xF0 then 0x90 ≤ b2 && b2 ≤ 0xBF
          else if b = 0xF4 then 0x80 ≤ b2 && b2 ≤ 0x8F
          else isCont b2
        if okB2 && isCont b3 && isCont b4 then
          (utf8Aux r4).map (fun cs =>
            Char.ofNat ((((b - 0xF0) * 64 + (b2 - 0x80)) * 64 + (b3 - 0x80)) * 64 + (b4 - 0x80)) :: cs)
        else none
      | _ => none
    else none

def utf8DecodeStrict (l : List Nat) : Option String :=
  (utf8Aux l).map String.mk

/-- UTF-8 decoding with `errors="ignore"`: an invalid byte is dropped
and decoding resumes at the next byte.  Total; the fuel argument is a
step bound (one byte is consumed per step, so the input length
suffices). -/
def utf8IgnoreAux : Nat → List Nat → List Char
  | 0, _ => []
  | _, [] => []
  | fuel + 1, b :: rest =>
    if b < 0x80 then Char.ofNat b :: utf8IgnoreAux fuel rest
    else if 0xC2 ≤ b && b ≤ 0xDF then
      match rest with
      | b2 :: r2 =>
        if isCont b2 then Char.ofNat ((b - 0xC0) * 64 + (b2 - 0x80)) :: utf8IgnoreAux fuel r2
        else utf8IgnoreAux fuel rest
      | [] => []
    else if 0xE0 ≤ b && b ≤ 0xEF then
      match rest with
      | b2 :: b3 :: r3 =>
        let okB2 : Bool :=
          if b = 0xE0 then 0xA0 ≤ b2 && b2 ≤ 0xBF
          else if b = 0xED then 0x80 ≤ b2 && b2 ≤ 0x9F
          else isCont b2
        if okB2 && isCont b3 then
          Char.ofNat (((b - 0xE0) * 64 + (b2 - 0x80)) * 64 + (b3 - 0x80)) :: utf8IgnoreAux fuel r3
        else utf8IgnoreAux fuel rest
      | _ => utf8IgnoreAux fuel rest
    else if 0xF0 ≤ b && b ≤ 0xF4 then
      match rest with
      | b2 :: b3 :: b4 :: r4 =>
        let okB2 : Bool :=
          if b = 0xF0 then 0x90 ≤ b2 && b2 ≤ 0xBF
          else if b = 0xF4 then 0x80 ≤ b2 && b2 ≤ 0x8F
          else isCont b2
        if okB2 && isCont b3 && isCont b4 then
          Char.ofNat ((((b - 0xF0) * 64 + (b2 - 0x80)) * 64 + (b3 - 0x80)) * 64 + (b4 - 0x80)) :: utf8IgnoreAux fuel r4
        else utf8IgnoreAux fuel rest
      | _ => utf8IgnoreAux fuel rest
    else utf8IgnoreAux fuel rest

def utf8DecodeIgnore (l : List Nat) : String :=
  String.mk (utf8IgnoreAux (l.length + 1) l)

/-- UTF-8 encoding of a string (used to feed text into the HMAC and to
model bytes arriving on the wire). -/
def utf8EncodeChar (c : Char) : List Nat :=
  let n := c.toNat
  if n < 0x80 then [n]
  else if n < 0x800 then [0xC0 + n / 64, 0x80 + n % 64]
  else if n < 0x10000 then [0xE0 + n / 4096, 0x80 + (n / 64) % 64, 0x80 + n % 64]
  else [0xF0 + n / 262144, 0x80 + (n / 4096) % 64, 0x80 + (n / 64) % 64, 0x80 + n % 64]

def utf8Encode (s : String) : List Nat :=
  s.data.foldr (fun c acc => utf8EncodeChar c ++ acc) []

/-- Bytes of an ASCII transport line (for concrete stream inputs). -/
def strBytes (s : String) : List Nat := s.data.map Char.toNat

/-! ### `base64.b64decode` -/

/-- Value of a standard base64 alphabet character. -/
def b64Val (c : Char) : Option Nat :=
  let n := c.toNat
  if 65 ≤ n && n ≤ 90 then some (n - 65)
  else if 97 ≤ n && n ≤ 122 then some (n - 97 + 26)
  else if 48 ≤ n && n ≤ 57 then some (n - 48 + 52)
  else if c = '+' then some 62
  else if c = '/' then some 63
  else none

/-- The state machine of CPython `binascii.a2b_base64` in non-strict
mode (as called by `base64.b64decode(s)` with the default
`validate=False`): characters outside the alphabet are ignored; a
padding character is ignored while fewer than two data characters stand
in the current quad, and once the quad's data characters plus the
accumulated pads reach four the decode stops and the rest of the input
is discarded; bytes are emitted eagerly as data characters arrive; a
non-empty final quad without closing padding is `binascii.Error`
(modelled as `none`). -/
def a2bBase64 : List Char → Nat → Nat → Nat → List Nat → Option (List Nat)
  | [], quadPos, _, _, out => if quadPos == 0 then some out.reverse else none
  | c :: rest, quadPos, leftchar, pads, out =>
    if c = '=' then
      if 2 ≤ quadPos then
        if 4 ≤ quadPos + (pads + 1) then some out.reverse
        else a2bBase64 rest quadPos leftchar (pads + 1) out
      else a2bBase64 rest quadPos leftchar pads out
    else
      match b64Val c with
      | none => a2bBase64 rest quadPos leftchar pads out
      | some v =>
        match quadPos with
        | 0 => a2bBase64 rest 1 v 0 out
        | 1 => a2bBase64 rest 2 (v % 16) 0 ((leftchar * 4 + v / 16) :: out)
        | 2 => a2bBase64 rest 3 (v % 4) 0 ((leftchar * 16 + v / 4) :: out)
        | _ => a2bBase64 rest 0 0 0 ((leftchar * 64 + v) :: out)

/-- `base64.b64decode(s)` for a `str` argument: the string must encode
to ASCII (a non-ASCII character raises `ValueError`), then the
non-strict `a2b_base64` machine runs; `none` models any raised
exception (`ValueError` or `binascii.Error`), which `_build_content`'s
`except` turns into the empty decoded text. -/
def b64Decode (s : String) : Option (List Nat) :=
  if s.data.all (fun c => c.toNat < 128) then a2bBase64 s.data 0 0 0 [] else none

/-! ### `json.loads` (subset)

A recursive-descent parser over the character list, fuelled for
termination.  It covers the JSON used by the chat-completions protocol:
objects, arrays, strings with the standard escapes, integers, and the
three literals.  Fractional/exponent numbers are not represented in
`Json` and make the parse fail; the claims quantify over parse outcomes
or use integer-only inputs, so this restriction is harmless. -/

def hexVal (c : Char) : Option Nat :=
  let n := c.toNat
  if 48 ≤ n && n ≤ 57 then some (n - 48)
  else if 97 ≤ n && n ≤ 102 then some (n - 97 + 10)
  else if 65 ≤ n && n ≤ 70 then some (n - 65 + 10)
  else none

def isWsChar (c : Char) : Bool := c == ' ' || c == '\t' || c == '\n' || c == '\r'

def skipWs (cs : List Char) : List Char := cs.dropWhile isWsChar

/-- Parse the body of a JSON string literal (the opening quote already
consumed), returning the string and the rest of the input.  A
`\uXXXX\uXXXX` surrogate pair is combined into one code point as
CPython's scanner does; a lone surrogate — which Python keeps in the
`str`, but which no Lean `Char` can carry — maps to U+0000
(`Char.ofNat`'s fallback), the one unrepresentable corner. -/
def parseStringLit : Nat → List Char → List Char → Option (String × List Char)
  | 0, _, _ => none
  | _, [], _ => none
  | _, '"' :: rest, acc => some (String.mk acc.reverse, rest)
  | fuel + 1, '\\' :: e :: rest, acc =>
    if e = 'u' then
      match rest with
      | h1 :: h2 :: h3 :: h4 :: r4 =>
        match hexVal h1, hexVal h2, hexVal h3, hexVal h4 with
        | some a, some b, some c, some d =>
          let u1 := ((a * 16 + b) * 16 + c) * 16 + d
          if 0xD800 ≤ u1 && u1 ≤ 0xDBFF then
            match r4 with
            | '\\' :: 'u' :: k1 :: k2 :: k3 :: k4 :: r8 =>
              (match hexVal k1, hexVal k2, hexVal k3, hexVal k4 with
               | some a2, some b2, some c2, some d2 =>
                 let u2 := ((a2 * 16 + b2) * 16 + c2) * 16 + d2
                 if 0xDC00 ≤ u2 && u2 ≤ 0xDFFF then
                   parseStringLit fuel r8
                     (Char.ofNat (0x10000 + (u1 - 0xD800) * 1024 + (u2 - 0xDC00)) :: acc)
                 else parseStringLit fuel r4 (Char.ofNat u1 :: acc)
               | _, _, _, _ => parseStringLit fuel r4 (Char.ofNat u1 :: acc))
            | _ => parseStringLit fuel r4 (Char.ofNat u1 :: acc)
          else parseStringLit fuel r4 (Char.ofNat u1 :: acc)
        | _, _, _, _ => none
      | _ => none
    else if e = '"' then parseStringLit fuel rest ('"' :: acc)
    else if e = '\\' then parseStringLit fuel rest ('\\' :: acc)
    else if e = '/' then parseStringLit fuel rest ('/' :: acc)
    else if e = 'n' then parseStringLit fuel rest ('\n' :: acc)
    else if e = 't' then parseStringLit fuel rest ('\t' :: acc)
    else if e = 'r' then parseStringLit fuel rest ('\r' :: acc)
    else if e = 'b' then parseStringLit fuel rest ('\x08' :: acc)
    else if e = 'f' then parseStringLit fuel rest ('\x0c' :: acc)
    else none
  | fuel + 1, c :: rest, acc => parseStringLit fuel rest (c :: acc)

def digitsToNat (l : List Char) : Nat :=
  l.foldl (fun acc c => acc * 10 + (c.toNat - 48)) 0

def isDigitCh (c : Char) : Bool := 48 ≤ c.toNat && c.toNat ≤ 57

/-- The JSON number token, as CPython's `NUMBER_RE`
`(-?(?:0|[1-9]\d*))(\.\d+)?([eE][-+]?\d+)?`: the integer part is a lone
`0` or starts with a nonzero digit (so `01` ends the token after `0`),
the fraction and exponent are taken only when well-formed, and the token
is an `int` unless a fraction or exponent is present, in which case the
exact decimal value `m * 10 ^ e` is recorded as `fnum`. -/
def parseNumber (neg : Bool) (cs : List Char) : Option (Json × List Char) :=
  match cs with
  | [] => none
  | c :: rest =>
    if !(isDigitCh c) then none
    else
      let intDigits : List Char :=
        if c = '0' then ['0'] else (c :: rest).takeWhile isDigitCh
      let r1 := (c :: rest).drop intDigits.length
      let fracDigits : List Char :=
        match r1 with
        | '.' :: t => t.takeWhile isDigitCh
        | _ => []
      let r2 := if fracDigits.isEmpty then r1 else r1.drop (fracDigits.length + 1)
      let expPart : Option (Int × List Char) :=
        match r2 with
        | e :: t =>
          if e = 'e' || e = 'E' then
            match t with
            | '+' :: t2 =>
              let ds := t2.takeWhile isDigitCh
              if ds.isEmpty then none else some ((digitsToNat ds : Int), t2.drop ds.length)
            | '-' :: t2 =>
              let ds := t2.takeWhile isDigitCh
              if ds.isEmpty then none else some (-(digitsToNat ds : Int), t2.drop ds.length)
            | t2 =>
              let ds := t2.takeWhile isDigitCh
              if ds.isEmpty then none else some ((digitsToNat ds : Int), t2.drop ds.length)
          else none
        | [] => none
      let sign : Int := if neg then -1 else 1
      let mFrac : Int :=
        (digitsToNat intDigits : Int) * 10 ^ fracDigits.length + (digitsToNat fracDigits : Int)
      match expPart, fracDigits.isEmpty with
      | none, true => some (.num (sign * (digitsToNat intDigits : Int)), r1)
      | none, false => some (.fnum (sign * mFrac) (-(fracDigits.length : Int)), r2)
      | some (ex, r3), true => some (.fnum (sign * (digitsToNat intDigits : Int)) ex, r3)
      | some (ex, r3), false => some (.fnum (sign * mFrac) (ex - fracDigits.length), r3)

/-- `dict` insertion while parsing an object: a repeated key keeps its
first position but takes the last value, as in Python. -/
def insertField : List (String × Json) → String → Json → List (String × Json)
  | [], k, v => [(k, v)]
  | (k', v') :: rest, k, v =>
    if k' = k then (k', v) :: rest else (k', v') :: insertField rest k v

/-- Which production the parser is currently working on: a single value,
the items of a non-empty array (opening bracket consumed), or the
members of a non-empty object (opening brace consumed). -/
inductive PTask where
  | val
  | items (acc : List Json)
  | fields (acc : List (String × Json))

def parseF : Nat → PTask → List Char → Option (Json × List Char)
  | 0, _, _ => none
  | fuel + 1, .val, cs =>
    match skipWs cs with
    | [] => none
    | 'n' :: 'u' :: 'l' :: 'l' :: rest => some (.null, rest)
    | 't' :: 'r' :: 'u' :: 'e' :: rest => some (.bool true, rest)
    | 'f' :: 'a' :: 'l' :: 's' :: 'e' :: rest => some (.bool false, rest)
    | '"' :: rest =>
      (parseStringLit (rest.length + 1) rest []).map (fun p => (.str p.1, p.2))
    | '[' :: rest =>
      (match skipWs rest with
       | ']' :: r2 => some (.arr [], r2)
       | _ => parseF fuel (.items []) rest)
    | '\x7b' :: rest =>
      (match skipWs rest with
       | '\x7d' :: r2 => some (.obj [], r2)
       | _ => parseF fuel (.fields []) rest)
    | 'N' :: 'a' :: 'N' :: rest => some (.nonfinite "nan", rest)
    | 'I' :: 'n' :: 'f' :: 'i' :: 'n' :: 'i' :: 't' :: 'y' :: rest => some (.nonfinite "inf", rest)
    | '-' :: 'I' :: 'n' :: 'f' :: 'i' :: 'n' :: 'i' :: 't' :: 'y' :: rest =>
      some (.nonfinite "-inf", rest)
    | '-' :: rest => parseNumber true rest
    | c :: rest => (if isDigitCh c then parseNumber false (c :: rest) else none)
  | fuel + 1, .items acc, cs =>
    (match parseF fuel .val cs with
     | none => none
     | some (v, r) =>
       match skipWs r with
       | ',' :: r2 => parseF fuel (.items (v :: acc)) r2
       | ']' :: r2 => some (.arr (v :: acc).reverse, r2)
       | _ => none)
  | fuel + 1, .fields acc, cs =>
    match skipWs cs with
    | '"' :: r =>
      (match parseStringLit (r.length + 1) r [] with
       | none => none
       | some (key, r2) =>
         match skipWs r2 with
         | ':' :: r3 =>
           (match parseF fuel .val r3 with
            | none => none
            | some (v, r4) =>
              match skipWs r4 with
              | ',' :: r5 => parseF fuel (.fields (insertField acc key v)) r5
              | '\x7d' :: r5 => some (.obj (insertField acc key v), r5)
              | _ => none)
         | _ => none)
    | _ => none

/-- `json.loads`: parse one value, then require only whitespace to
remain (CPython raises `Extra data` otherwise, also a
`JSONDecodeError`).  The fuel is generous: on every well-formed input
the parse completes, and on malformed input both CPython and the model
fail.  Resource-exhaustion failures — CPython's `RecursionError` on
input nested beyond the interpreter's stack-dependent recursion limit,
or `MemoryError` — are runtime-environment conditions outside this
embedding, as memory exhaustion is everywhere else in the model. -/
def jsonParse (s : String) : Option Json :=
  match parseF (s.data.length + 2) .val s.data with
  | some (v, rest) => if (skipWs rest).isEmpty then some v else none
  | none => none

/-! ### The `msgmodel.providers.openai` module -/

/-- `MIME_TYPE_JSON` constant of `providers/openai.py`. -/
def MIME_TYPE_JSON : String := "application/json"

/-- Modelled from the spec: the chat-completions endpoint constant
`OPENAI_URL` lives in the absent `msgmodel/config.py`; only its import
appears in `providers/openai.py`, and no claim depends on its value. -/
def OPENAI_URL : String := "https://api.openai.com/v1/chat/completions"

/-- Modelled from the spec: `OpenAIConfig` is defined in the absent
`msgmodel/config.py`; the provider reads exactly the four fields used
below.  `temperature`/`top_p` are carried opaquely as JSON values (the
provider copies them into the payload without inspecting them). -/
structure OpenAIConfig where
  model : String
  max_tokens : Int
  temperature : Json
  top_p : Json

/-- The `file_data` dict consumed by `_build_content`: `mime_type` is
accessed with `[]` (mandatory), `data` and `filename` with `.get` and a
default. -/
structure FileData where
  mime_type : String
  data : Option String
  filename : Option String

/-- `OpenAIProvider._build_headers`: the fixed header dict, with the
Zero-Data-Retention header always present. -/
def build_headers (api_key : String) : List (String × String) :=
  [("Content-Type", MIME_TYPE_JSON),
   ("Authorization", "Bearer " ++ api_key),
   ("X-OpenAI-No-Store", "true")]

/-- `OpenAIProvider._build_content`.  The attachment-derived blocks are
computed per MIME branch; the prompt block is appended last. -/
def build_content (prompt : String) (file_data : Option FileData) : List Json :=
  let content : List Json :=
    match file_data with
    | none => []
    | some fd =>
      if pyStartsWith fd.mime_type "image/" then
        [Json.obj [("type", Json.str "image_url"),
                   ("image_url", Json.obj
                     [("url", Json.str ("data:" ++ fd.mime_type ++ ";base64," ++ fd.data.getD ""))])]]
      else if pyStartsWith fd.mime_type "text/" then
        let decoded_text :=
          match b64Decode (fd.data.getD "") with
          | some bs => utf8DecodeIgnore bs
          | none => ""
        if pyStrip decoded_text == "" then []
        else
          [Json.obj [("type", Json.str "text"),
                     ("text", Json.str ("(Contents of " ++ fd.filename.getD "input.bin" ++ "):\n\n" ++ decoded_text))]]
      else
        [Json.obj [("type", Json.str "text"),
                   ("text", Json.str ("[Note: A file named \x27" ++ fd.filename.getD "input.bin" ++
                     "\x27 with MIME type \x27" ++ fd.mime_type ++
                     "\x27 was provided. You may not be able to read it directly, but you can still respond based on the description and prompt.]"))]]
  content ++ [Json.obj [("type", Json.str "text"), ("text", Json.str prompt)]]

/-- `OpenAIProvider._build_payload`.  Note the token-limit parameter: it
is always emitted under the name `max_tokens`, for every configured
model. -/
def build_payload (cfg : OpenAIConfig) (prompt : String)
    (system_instruction : Option String) (file_data : Option FileData)
    (stream : Bool) : Json :=
  let messages : List Json :=
    (match system_instruction with
     | some s => if s == "" then [] else [Json.obj [("role", Json.str "system"), ("content", Json.str s)]]
     | none => []) ++
    [Json.obj [("role", Json.str "user"), ("content", Json.arr (build_content prompt file_data))]]
  Json.obj
    ([("model", Json.str cfg.model),
      ("messages", Json.arr messages),
      ("max_tokens", Json.num cfg.max_tokens),
      ("temperature", cfg.temperature),
      ("top_p", cfg.top_p)] ++
     (if stream then [("stream", Json.bool true)] else []))

/-- Modelled from the call sites and the spec: the error classes of the
absent `msgmodel/exceptions.py`.  `providers/openai.py` imports exactly
`APIError`, `ProviderError` and `StreamingError`; no transport-specific
class is imported or raised. -/
inductive ErrKind where
  | api
  | provider
  | streaming
deriving DecidableEq

/-- An exception value: `APIError(message, status_code=..., response_text=...)`
carries the optional HTTP status and raw body. -/
structure MMError where
  kind : ErrKind
  message : String
  status_code : Option Nat
  response_text : Option String

/-- The outbound HTTP request handed to `requests.post` (the JSON body
is kept structured; `json.dumps` serialization is transport glue outside
the claims). -/
structure OutboundReq where
  url : String
  headers : List (String × String)
  body : Json

/-- What the transport does for a non-streaming call: either
`requests.RequestException` before any response, or a response with a
status code and a body.  `response.ok` is `status < 400`. -/
inductive HttpResult where
  | connError (msg : String)
  | response (status : Nat) (body : String)

structure QueryRun where
  sent : OutboundReq
  result : Except MMError (Option Json)

/-- `OpenAIProvider.query`: build payload and headers, post, map a
connection failure to `APIError("Request failed: ...")` (no status
code), a non-ok status to `APIError("OpenAI API error: <body>")`
carrying the status and the raw body, and a success to
`response.json()`. -/
def query (api_key : String) (cfg : OpenAIConfig) (prompt : String)
    (system_instruction : Option String) (file_data : Option FileData)
    (t : HttpResult) : QueryRun :=
  let payload := build_payload cfg prompt system_instruction file_data false
  let headers := build_headers api_key
  let sent : OutboundReq := ⟨OPENAI_URL, headers, payload⟩
  let result : Except MMError (Option Json) :=
    match t with
    | .connError m => .error ⟨.api, "Request failed: " ++ m, none, none⟩
    | .response status body =>
      if status < 400 then .ok (jsonParse body)
      else .error ⟨.api, "OpenAI API error: " ++ body, some status, some body⟩
  ⟨sent, result⟩

/-- Python `pat in s` for strings: substring containment. -/
def isSubstrOf (pat s : List Char) : Bool :=
  (List.range (s.length + 1)).any (fun i => pat.isPrefixOf (s.drop i))

/-- The per-chunk extraction inside the streaming loop:
`if "choices" in chunk and isinstance(chunk["choices"], list)`, then
each dict choice is probed for a dict `delta` and
`delta.get("content", "")` is yielded when truthy (the value itself, no
type coercion).  `none` models the `TypeError` that Python's `in` / `[]`
raise on a parsed chunk that is a number, bool, or `None` (not
iterable), or a string/list that does contain `"choices"` (so the
subsequent non-integer indexing raises); such a `TypeError` escapes the
`except json.JSONDecodeError` and aborts the stream. -/
def extract_deltas (chunk : Json) : Option (List Json) :=
  match chunk with
  | .obj fields =>
    match assocLookup fields "choices" with
    | some (.arr cs) =>
      some (cs.foldr
        (fun choice acc =>
          if choice.isObj then
            let delta := (jsonGet? choice "delta").getD (Json.obj [])
            if delta.isObj then
              let text := (jsonGet? delta "content").getD (Json.str "")
              if truthy text then text :: acc else acc
            else acc
          else acc)
        [])
    | some _ => some []
    | none => some []
  | .str s => if isSubstrOf "choices".data s.data then none else some []
  | .arr xs =>
    if xs.any (fun j => match j with | .str t => t == "choices" | _ => false) then none
    else some []
  | _ => none

/-- How a streaming loop ends: normally (end of lines or `[DONE]`), or
with the wrapper `except Exception` re-raising as `StreamingError`
(reached when a line is not valid UTF-8, or when the parsed chunk's
`"choices" in chunk` / `chunk["choices"]` raises `TypeError`). -/
inductive StreamFin where
  | completed
  | interrupted

/-- Result of the streaming loop: yielded chunks in order, whether the
zero-chunk diagnostic (`logger.error`) fired, and how the loop ended. -/
structure LoopResult where
  chunks : List Json
  emptyLogged : Bool
  fin : StreamFin

/-- The `for line in response.iter_lines()` loop of
`OpenAIProvider.stream`, over the raw byte lines, with the
`chunks_received` counter and the accumulated yields (reversed). -/
def runLoop : List (List Nat) → Nat → List Json → LoopResult
  | [], count, acc => ⟨acc.reverse, count == 0, .completed⟩
  | line :: rest, count, acc =>
    if line.isEmpty then runLoop rest count acc
    else
      match utf8DecodeStrict line with
      | none => ⟨acc.reverse, false, .interrupted⟩
      | some line_text =>
        if pyStartsWith line_text "data: " then
          let data := pyDrop line_text 6
          if data == "[DONE]" then ⟨acc.reverse, count == 0, .completed⟩
          else
            match jsonParse data with
            | none => runLoop rest count acc
            | some chunk =>
              match extract_deltas chunk with
              | none => ⟨acc.reverse, false, .interrupted⟩
              | some texts => runLoop rest (count + texts.length) (texts.reverse ++ acc)
        else runLoop rest count acc

def processLines (lines : List (List Nat)) : LoopResult := runLoop lines 0 []

/-- What the transport does for a streaming call: a connection failure,
or a response whose body is followed by the iterated lines. -/
inductive StreamHttp where
  | connError (msg : String)
  | response (status : Nat) (body : String) (lines : List (List Nat))

/-- Outcome of the stream generator: an exception before any yield, or
a run of the line loop. -/
inductive StreamOutcome where
  | earlyError (e : MMError)
  | ran (r : LoopResult)

structure StreamRun where
  sent : OutboundReq
  outcome : StreamOutcome

/-- `OpenAIProvider.stream`: same pre-flight handling as `query` (with
`stream=True` in the payload), then the line loop. -/
def stream (api_key : String) (cfg : OpenAIConfig) (prompt : String)
    (system_instruction : Option String) (file_data : Option FileData)
    (t : StreamHttp) : StreamRun :=
  let payload := build_payload cfg prompt system_instruction file_data true
  let headers := build_headers api_key
  let sent : OutboundReq := ⟨OPENAI_URL, headers, payload⟩
  let outcome : StreamOutcome :=
    match t with
    | .connError m => .earlyError ⟨.api, "Request failed: " ++ m, none, none⟩
    | .response status body lines =>
      if status < 400 then .ran (processLines lines)
      else .earlyError ⟨.api, "OpenAI API error: " ++ body, some status, some body⟩
  ⟨sent, outcome⟩

/-- The loop body of `OpenAIProvider.extract_text` over the choices
list: skip non-dict choices and non-dict messages, return the first
truthy `message.get("content", "")` unchanged. -/
def extractLoop : List Json → Json
  | [] => .str ""
  | choice :: rest =>
    if choice.isObj then
      let message := (jsonGet? choice "message").getD (Json.obj [])
      if message.isObj then
        let content := (jsonGet? message "content").getD (Json.str "")
        if truthy content then content else extractLoop rest
      else extractLoop rest
    else extractLoop rest

/-- `OpenAIProvider.extract_text` on a response dict.  As in Python, the
found content value is returned as-is (the `-> str` annotation is not
enforced at runtime). -/
def extract_text (response : List (String × Json)) : Json :=
  match assocLookup response "choices" with
  | some (.arr cs) => extractLoop cs
  | _ => .str ""

/-! ### The v3.2.1 request signer

Modelled from the spec: `RequestSigner` lives in a module of this
repository that is not under `src/` (only its demo caller
`examples/v3_2_1_features_demo.py` is).  Per the spec it canonicalizes
the fields `provider, message, model, user_id, org_id` into a
deterministic string with stable ordering, explicit separators and no
empty-vs-missing ambiguity (canonicalization must be injective), then
takes HMAC-SHA256 of the canonical string under the secret key, rendered
as fixed-width lowercase hex; verification recomputes and compares.
SHA-256 below is the real FIPS 180-4 function (words as `Nat` reduced
mod 2^32). -/

/-- Right rotation of a 32-bit word. -/
def rotr (x n : Nat) : Nat := ((x >>> n) ||| (x <<< (32 - n))) % 4294967296

/-- The 64 SHA-256 round constants (fractional parts of the cube roots
of the first 64 primes; written in decimal). -/
def sha256K : List Nat :=
  [1116352408, 1899447441, 3049323471, 3921009573, 961987163, 1508970993,
   2453635748, 2870763221, 3624381080, 310598401, 607225278, 1426881987,
   1925078388, 2162078206, 2614888103, 3248222580, 3835390401, 4022224774,
   264347078, 604807628, 770255983, 1249150122, 1555081692, 1996064986,
   2554220882, 2821834349, 2952996808, 3210313671, 3336571891, 3584528711,
   113926993, 338241895, 666307205, 773529912, 1294757372, 1396182291,
   1695183700, 1986661051, 2177026350, 2456956037, 2730485921, 2820302411,
   3259730800, 3345764771, 3516065817, 3600352804, 4094571909, 275423344,
   430227734, 506948616, 659060556, 883997877, 958139571, 1322822218,
   1537002063, 1747873779, 1955562222, 2024104815, 2227730452, 2361852424,
   2428436474, 2756734187, 3204031479, 3329325298]

/-- The eight working variables / hash words. -/
structure H8 where
  a : Nat
  b : Nat
  c : Nat
  d : Nat
  e : Nat
  f : Nat
  g : Nat
  h : Nat

def sha256Init : H8 :=
  ⟨1779033703, 3144134277, 1013904242, 2773480762, 1359893119, 2600822924, 528734635, 1541459225⟩

/-- Big-endian 32-bit words from bytes. -/
def bytesToWords : List Nat → List Nat
  | b0 :: b1 :: b2 :: b3 :: rest =>
    ((((b0 % 256) * 256 + b1 % 256) * 256 + b2 % 256) * 256 + b3 % 256) :: bytesToWords rest
  | _ => []

/-- Extend the 16 block words by `n` schedule words. -/
def msgSchedule : Nat → List Nat → List Nat
  | 0, ws => ws
  | n + 1, ws =>
    let len := ws.length
    let w15 := ws.getD (len - 15) 0
    let w2 := ws.getD (len - 2) 0
    let w16 := ws.getD (len - 16) 0
    let w7 := ws.getD (len - 7) 0
    let s0 := (rotr w15 7) ^^^ (rotr w15 18) ^^^ (w15 >>> 3)
    let s1 := (rotr w2 17) ^^^ (rotr w2 19) ^^^ (w2 >>> 10)
    msgSchedule n (ws ++ [(w16 + s0 + w7 + s1) % 4294967296])

/-- One SHA-256 round. -/
def compressStep (s : H8) (kw : Nat × Nat) : H8 :=
  let S1 := (rotr s.e 6) ^^^ (rotr s.e 11) ^^^ (rotr s.e 25)
  let ch := (s.e &&& s.f) ^^^ ((s.e ^^^ 4294967295) &&& s.g)
  let temp1 := (s.h + S1 + ch + kw.1 + kw.2) % 4294967296
  let S0 := (rotr s.a 2) ^^^ (rotr s.a 13) ^^^ (rotr s.a 22)
  let maj := (s.a &&& s.b) ^^^ (s.a &&& s.c) ^^^ (s.b &&& s.c)
  let temp2 := (S0 + maj) % 4294967296
  ⟨(temp1 + temp2) % 4294967296, s.a, s.b, s.c, (s.d + temp1) % 4294967296, s.e, s.f, s.g⟩

/-- Compress one 64-byte block into the hash state. -/
def compressBlock (hs : H8) (block : List Nat) : H8 :=
  let ws := msgSchedule 48 (bytesToWords block)
  let s := (sha256K.zip ws).foldl compressStep hs
  ⟨(hs.a + s.a) % 4294967296, (hs.b + s.b) % 4294967296, (hs.c + s.c) % 4294967296,
   (hs.d + s.d) % 4294967296, (hs.e + s.e) % 4294967296, (hs.f + s.f) % 4294967296,
   (hs.g + s.g) % 4294967296, (hs.h + s.h) % 4294967296⟩

/-- Big-endian bytes of a number, fixed width. -/
def natToBytesBE (k n : Nat) : List Nat :=
  (List.range k).map (fun i => (n >>> (8 * (k - 1 - i))) % 256)

/-- FIPS 180-4 padding: `0x80`, zeros to 56 mod 64, 8-byte bit length. -/
def sha256Pad (msg : List Nat) : List Nat :=
  let len := msg.length
  msg ++ [128] ++ List.replicate ((119 - (len % 64)) % 64) 0 ++ natToBytesBE 8 (8 * len)

/-- 64-byte blocks of a padded message (fuelled; one block per step). -/
def toBlocks : Nat → List Nat → List (List Nat)
  | 0, _ => []
  | _, [] => []
  | fuel + 1, l => l.take 64 :: toBlocks fuel (l.drop 64)

def sha256H (msg : List Nat) : H8 :=
  (toBlocks (msg.length + 9) (sha256Pad msg)).foldl compressBlock sha256Init

/-- The 256-bit digest as one number (concatenated 32-bit words). -/
def hDigest (s : H8) : Nat :=
  [s.a, s.b, s.c, s.d, s.e, s.f, s.g, s.h].foldl
    (fun acc w => acc * 4294967296 + w % 4294967296) 0

def sha256Nat (msg : List Nat) : Nat := hDigest (sha256H msg)

def sha256Bytes (msg : List Nat) : List Nat := natToBytesBE 32 (sha256Nat msg)

/-- HMAC-SHA256 over byte lists (RFC 2104): long keys are hashed, the
key is zero-padded to the 64-byte block, inner pad `0x36`, outer pad
`0x5c`. -/
def hmacSha256 (key msg : List Nat) : Nat :=
  let k0 := if key.length > 64 then sha256Bytes key else key
  let kp := k0 ++ List.replicate (64 - k0.length) 0
  sha256Nat ((kp.map (· ^^^ 0x5c)) ++ sha256Bytes ((kp.map (· ^^^ 0x36)) ++ msg))

/-- Lowercase hex digit. -/
def hexChar (n : Nat) : Char :=
  if n < 10 then Char.ofNat (48 + n) else Char.ofNat (87 + n)

/-- `hexdigest()` of a 256-bit value: exactly 64 lowercase hex chars,
most significant first. -/
def toHex64 (n : Nat) : String :=
  String.mk ((List.range 64).map (fun i => hexChar ((n >>> (4 * (63 - i))) % 16)))

/-- The signed field set of `sign_request` / `verify_signature`;
`org_id` is an optional keyword in the demo, hence `Option`. -/
structure SignFields where
  provider : String
  message : String
  model : String
  user_id : String
  org_id : Option String

/-- Length-prefixed encoding of one field value: the length in unary,
a colon, then the raw characters.  Unambiguous however the value mixes
separators, so canonicalization is injective. -/
def encField (s : String) : List Char :=
  List.replicate s.data.length 'a' ++ ':' :: s.data

/-- Modelled from the spec: deterministic canonical string over the five
fields in fixed order, with a missing `org_id` encoded differently from
every present value (no empty-vs-missing ambiguity). -/
def canonicalFields (f : SignFields) : String :=
  String.mk
    (encField f.provider ++ encField f.message ++ encField f.model ++ encField f.user_id ++
     (match f.org_id with
      | none => ['-']
      | some o => '+' :: encField o))

/-- Modelled from the spec: `RequestSigner.sign_request` — HMAC-SHA256
of the canonical string under the UTF-8 secret key, as fixed-width
lowercase hex. -/
def sign_request (secret_key : String) (f : SignFields) : String :=
  toHex64 (hmacSha256 (utf8Encode secret_key) (utf8Encode (canonicalFields f)))

/-- Modelled from the spec: `RequestSigner.verify_signature` recomputes
the signature and compares (the constant-time character of
`hmac.compare_digest` has no further functional content). -/
def verify_signature (signature : String) (secret_key : String) (f : SignFields) : Bool :=
  signature == sign_request secret_key f

/-! ## Claims -/

/-- C1: the claim says `_build_payload` classifies the configured model
identifier and emits the token-limit parameter under the name
appropriate to the family (`max_completion_tokens` for GPT-4o-class
models).  The code never classifies: for every configuration — in
particular `model = "gpt-4o"`, the failing input documented as working
in `examples/v3_2_1_features_demo.py` — the payload carries the
parameter under `max_tokens` and never under `max_completion_tokens`. -/
theorem C1_token_param_always_max_tokens (cfg : OpenAIConfig) (p : String)
    (sys : Option String) (fd : Option FileData) (st : Bool) :
    jsonGet? (build_payload cfg p sys fd st) "max_completion_tokens" = none ∧
    jsonGet? (build_payload cfg p sys fd st) "max_tokens" = some (Json.num cfg.max_tokens) := by
  cases st <;> simp [build_payload, jsonGet?, assocLookup]

/-- C5: the content list built by `_build_content` always ends with the
user prompt text block, after any attachment-derived blocks, and the
prompt block is the whole list when no attachment is given. -/
theorem C5_prompt_always_last (p : String) (fd : Option FileData) :
    (∃ pre, build_content p fd =
      pre ++ [Json.obj [("type", Json.str "text"), ("text", Json.str p)]]) ∧
    build_content p none = [Json.obj [("type", Json.str "text"), ("text", Json.str p)]] :=
  ⟨⟨_, rfl⟩, rfl⟩

/-- A MIME type in the `text/` family is never also in the `image/`
family, so the `elif` branch of `_build_content` is reached. -/
lemma startsWith_text_not_image {s : String} (h : pyStartsWith s "text/" = true) :
    pyStartsWith s "image/" = false := by
  unfold pyStartsWith at h ⊢
  rw [ List.isPrefixOf_iff_prefix] at h
  by_contra hc
  rw [Bool.not_eq_false, List.isPrefixOf_iff_prefix] at hc
  obtain ⟨t, ht⟩ := h
  obtain ⟨u, hu⟩ := hc
  have hiu : ("image/".data ++ u).head? = ("text/".data ++ t).head? := by rw [ht, hu]
  rw [show "image/".data = 'i' :: "mage/".data from rfl,
      show "text/".data = 't' :: "ext/".data from rfl] at hiu
  simp at hiu

/-- C4: `_build_content` renders an `image/*` attachment as an
un-decoded data URI, inlines a `text/*` attachment as the single
`(Contents of <filename>):\n\n<decoded>` block — omitted entirely when
base64 decoding fails or the decoded text strips to nothing — and turns
any other MIME category into the descriptive note block naming the
filename and MIME type.  The prompt block follows in every case. -/
theorem C4_attachment_block_shapes (p : String) (fd : FileData) :
    (pyStartsWith fd.mime_type "image/" = true →
      build_content p (some fd) =
        [Json.obj [("type", Json.str "image_url"),
           ("image_url", Json.obj [("url",
             Json.str ("data:" ++ fd.mime_type ++ ";base64," ++ fd.data.getD ""))])],
         Json.obj [("type", Json.str "text"), ("text", Json.str p)]]) ∧
    (pyStartsWith fd.mime_type "text/" = true →
      build_content p (some fd) =
        (let decoded_text :=
          match b64Decode (fd.data.getD "") with
          | some bs => utf8DecodeIgnore bs
          | none => ""
         if pyStrip decoded_text == "" then
           [Json.obj [("type", Json.str "text"), ("text", Json.str p)]]
         else
           [Json.obj [("type", Json.str "text"),
              ("text", Json.str ("(Contents of " ++ fd.filename.getD "input.bin" ++ "):\n\n" ++ decoded_text))],
            Json.obj [("type", Json.str "text"), ("text", Json.str p)]])) ∧
    (pyStartsWith fd.mime_type "text/" = true → b64Decode (fd.data.getD "") = none →
      build_content p (some fd) =
        [Json.obj [("type", Json.str "text"), ("text", Json.str p)]]) ∧
    (pyStartsWith fd.mime_type "image/" = false → pyStartsWith fd.mime_type "text/" = false →
      build_content p (some fd) =
        [Json.obj [("type", Json.str "text"),
           ("text", Json.str ("[Note: A file named \x27" ++ fd.filename.getD "input.bin" ++
             "\x27 with MIME type \x27" ++ fd.mime_type ++
             "\x27 was provided. You may not be able to read it directly, but you can still respond based on the description and prompt.]"))],
         Json.obj [("type", Json.str "text"), ("text", Json.str p)]]) := by
  refine ⟨?_, ?_, ?_, ?_⟩
  · intro h
    simp [build_content, h]
  · intro h
    simp [build_content, h, startsWith_text_not_image h]
    split <;> simp
  · intro h hb
    simp [build_content, h, startsWith_text_not_image h, hb]
    rfl
  · intro h1 h2
    simp [build_content, h1, h2]

/-- C4 witness: the three branches at concrete attachments
(`QUJD` = "ABC", `aGk=` = "hi", `JVBERg==` = "%PDF"). -/
theorem C4_attachment_block_shapes_witness :
    build_content "q" (some ⟨"image/png", some "QUJD", some "p.png"⟩) =
      [Json.obj [("type", Json.str "image_url"),
         ("image_url", Json.obj [("url", Json.str "data:image/png;base64,QUJD")])],
       Json.obj [("type", Json.str "text"), ("text", Json.str "q")]] ∧
    build_content "q" (some ⟨"text/plain", some "aGk=", some "a.txt"⟩) =
      [Json.obj [("type", Json.str "text"), ("text", Json.str "(Contents of a.txt):\n\nhi")],
       Json.obj [("type", Json.str "text"), ("text", Json.str "q")]] ∧
    build_content "q" (some ⟨"text/plain", some "a", some "a.txt"⟩) =
      [Json.obj [("type", Json.str "text"), ("text", Json.str "q")]] ∧
    build_content "q" (some ⟨"application/pdf", some "JVBERg==", some "d.pdf"⟩) =
      [Json.obj [("type", Json.str "text"),
         ("text", Json.str ("[Note: A file named \x27d.pdf\x27 with MIME type \x27application/pdf\x27 was provided. You may not be able to read it directly, but you can still respond based on the description and prompt.]"))],
       Json.obj [("type", Json.str "text"), ("text", Json.str "q")]] :=
  ⟨(C4_attachment_block_shapes "q" ⟨"image/png", some "QUJD", some "p.png"⟩).1 rfl,
   (C4_attachment_block_shapes "q" ⟨"text/plain", some "aGk=", some "a.txt"⟩).2.1 rfl,
   (C4_attachment_block_shapes "q" ⟨"text/plain", some "a", some "a.txt"⟩).2.2.1 rfl rfl,
   (C4_attachment_block_shapes "q" ⟨"application/pdf", some "JVBERg==", some "d.pdf"⟩).2.2.2 rfl rfl⟩

/-- C10: for a `text/*` attachment whose base64 payload decodes to
bytes `bs`, the block text is the `errors="ignore"` UTF-8 decoding of
`bs` — invalid bytes are silently dropped and never raise or suppress
the block by themselves — and the block is omitted exactly when the
text remaining after dropping invalid bytes strips to the empty
string. -/
theorem C10_text_decoded_with_ignore (p : String) (fd : FileData) (bs : List Nat)
    (h : pyStartsWith fd.mime_type "text/" = true)
    (hb : b64Decode (fd.data.getD "") = some bs) :
    build_content p (some fd) =
      (if pyStrip (utf8DecodeIgnore bs) == "" then
        [Json.obj [("type", Json.str "text"), ("text", Json.str p)]]
      else
        [Json.obj [("type", Json.str "text"),
           ("text", Json.str ("(Contents of " ++ fd.filename.getD "input.bin" ++ "):\n\n" ++
             utf8DecodeIgnore bs))],
         Json.obj [("type", Json.str "text"), ("text", Json.str p)]]) := by
  simp [build_content, h, startsWith_text_not_image h, hb]
  split <;> simp

/-- C10 witness: `/2hp` decodes to bytes `[0xFF, 0x68, 0x69]`; the
invalid byte `0xFF` is dropped and the block text ends in `hi`. -/
theorem C10_text_decoded_with_ignore_witness :
    build_content "q" (some ⟨"text/plain", some "/2hp", some "f.txt"⟩) =
      [Json.obj [("type", Json.str "text"), ("text", Json.str "(Contents of f.txt):\n\nhi")],
       Json.obj [("type", Json.str "text"), ("text", Json.str "q")]] :=
  C10_text_decoded_with_ignore "q" ⟨"text/plain", some "/2hp", some "f.txt"⟩ [255, 104, 105] rfl rfl

/-- The exception class of a non-streaming outcome, if it raised. -/
def resultKind : Except MMError (Option Json) → Option ErrKind
  | .error e => some e.kind
  | .ok _ => none

/-- The exception class of a streaming pre-flight outcome, if it
raised before any yield. -/
def outcomeKind : StreamOutcome → Option ErrKind
  | .earlyError e => some e.kind
  | .ran _ => none

/-- C2 counterexample: the claim says a connection-level failure is
reported as a "transport error" kind distinct from the "API error"
kind.  In the code both the pre-response connection failure and the
non-success HTTP status raise the same `APIError` class, shown here at
concrete inputs for `query` and `stream`. -/
theorem C2_counterexample :
    resultKind (query "k" ⟨"gpt-4o", 1000, Json.num 1, Json.num 1⟩ "p" none none
      (.connError "connection refused")).result = some ErrKind.api ∧
    resultKind (query "k" ⟨"gpt-4o", 1000, Json.num 1, Json.num 1⟩ "p" none none
      (.response 500 "Internal Server Error")).result = some ErrKind.api ∧
    outcomeKind (stream "k" ⟨"gpt-4o", 1000, Json.num 1, Json.num 1⟩ "p" none none
      (.connError "connection refused")).outcome = some ErrKind.api :=
  ⟨rfl, rfl, rfl⟩

/-- C2 (amended): a connection-level failure before any response raises
`APIError("Request failed: <detail>")` without a status code, while a
non-success HTTP status raises `APIError("OpenAI API error: <body>")`
carrying the numeric status code and the raw error body verbatim; the
two situations share the `APIError` kind (there is no separate
transport-error class) and are distinguishable only by the absent
status code. -/
theorem C2_error_reporting (api_key : String) (cfg : OpenAIConfig) (p : String)
    (sys : Option String) (fd : Option FileData) (m body : String) (status : Nat)
    (lines : List (List Nat)) (hstatus : 400 ≤ status) :
    (query api_key cfg p sys fd (.connError m)).result =
      .error ⟨.api, "Request failed: " ++ m, none, none⟩ ∧
    (query api_key cfg p sys fd (.response status body)).result =
      .error ⟨.api, "OpenAI API error: " ++ body, some status, some body⟩ ∧
    (stream api_key cfg p sys fd (.connError m)).outcome =
      .earlyError ⟨.api, "Request failed: " ++ m, none, none⟩ ∧
    (stream api_key cfg p sys fd (.response status body lines)).outcome =
      .earlyError ⟨.api, "OpenAI API error: " ++ body, some status, some body⟩ := by
  have hlt : ¬ status < 400 := by omega
  exact ⟨rfl, by simp [query, hlt], rfl, by simp [stream, hlt]⟩

/-- C2 witness: the amended behaviour at concrete inputs (HTTP 500). -/
theorem C2_error_reporting_witness :
    (query "k" ⟨"gpt-4o", 1000, Json.num 1, Json.num 1⟩ "p" none none (.connError "boom")).result =
      .error ⟨.api, "Request failed: boom", none, none⟩ ∧
    (query "k" ⟨"gpt-4o", 1000, Json.num 1, Json.num 1⟩ "p" none none (.response 500 "err")).result =
      .error ⟨.api, "OpenAI API error: err", some 500, some "err"⟩ ∧
    (stream "k" ⟨"gpt-4o", 1000, Json.num 1, Json.num 1⟩ "p" none none (.connError "boom")).outcome =
      .earlyError ⟨.api, "Request failed: boom", none, none⟩ ∧
    (stream "k" ⟨"gpt-4o", 1000, Json.num 1, Json.num 1⟩ "p" none none
      (.response 500 "err" [])).outcome =
      .earlyError ⟨.api, "OpenAI API error: err", some 500, some "err"⟩ :=
  C2_error_reporting "k" ⟨"gpt-4o", 1000, Json.num 1, Json.num 1⟩ "p" none none
    "boom" "err" 500 [] (by decide)

/-- The `chunks_received` counter of the stream loop always equals the
number of yields accumulated so far, so the zero-chunk diagnostic fires
exactly for an empty completed stream. -/
lemma runLoop_completed_empty_iff :
    ∀ (lines : List (List Nat)) (count : Nat) (acc : List Json), count = acc.length →
      ∀ ch lg, runLoop lines count acc = ⟨ch, lg, .completed⟩ → (lg = true ↔ ch = []) := by
  intro lines
  induction lines with
  | nil =>
    intro count acc hc ch lg h
    rw [runLoop] at h
    cases h
    simp [hc]
  | cons line rest ih =>
    intro count acc hc ch lg h
    rw [runLoop] at h
    split at h
    · exact ih _ _ hc _ _ h
    · split at h
      · cases h
      · split at h
        · dsimp only at h
          split at h
          · cases h
            simp [hc]
          · split at h
            · exact ih _ _ hc _ _ h
            · split at h
              · cases h
              · refine ih _ _ ?_ _ _ h
                simp [hc]
                omega
        · exact ih _ _ hc _ _ h

/-- C7: a streaming call that terminates normally (end-of-stream marker
or exhaustion of the connection's lines) fires the `logger.error`
zero-chunk diagnostic exactly when it yielded no chunks, and such a run
completes without raising. -/
theorem C7_empty_stream_diagnostic (lines : List (List Nat)) (ch : List Json) (lg : Bool)
    (h : processLines lines = ⟨ch, lg, .completed⟩) : lg = true ↔ ch = [] :=
  runLoop_completed_empty_iff lines 0 [] rfl ch lg h

/-- C7 witness: a stream consisting of the `[DONE]` marker alone
completes normally, yields nothing, and fires the diagnostic. -/
theorem C7_empty_stream_diagnostic_witness :
    processLines [strBytes "data: [DONE]"] = (⟨[], true, .completed⟩ : LoopResult) ∧
    (true = true ↔ ([] : List Json) = []) :=
  ⟨rfl, C7_empty_stream_diagnostic [strBytes "data: [DONE]"] [] true rfl⟩

/-- C3 counterexample: the claim says a malformed or undecodable line
is skipped and the stream keeps yielding.  Two refutations: the invalid
UTF-8 byte line `0xFF` (strict `line.decode("utf-8")` raises, caught
only by the outer `except Exception` which re-raises `StreamingError`),
and the decodable-but-delta-shapeless line `data: 42` (`"choices" in 42`
raises `TypeError`, likewise re-raised) — each kills the stream, and the
following well-formed chunk line (which alone yields `"Hi"`) is never
processed. -/
theorem C3_counterexample :
    processLines
      [[255], strBytes "data: \x7b\"choices\":[\x7b\"delta\":\x7b\"content\":\"Hi\"\x7d\x7d]\x7d"] =
      ⟨[], false, .interrupted⟩ ∧
    processLines
      [strBytes "data: 42",
       strBytes "data: \x7b\"choices\":[\x7b\"delta\":\x7b\"content\":\"Hi\"\x7d\x7d]\x7d"] =
      ⟨[], false, .interrupted⟩ ∧
    processLines
      [strBytes "data: \x7b\"choices\":[\x7b\"delta\":\x7b\"content\":\"Hi\"\x7d\x7d]\x7d"] =
      ⟨[Json.str "Hi"], false, .completed⟩ :=
  ⟨rfl, rfl, rfl⟩

/-- C3 (amended): a non-empty event line that is valid UTF-8 but fails
JSON parsing is skipped and the loop continues unchanged, as is a line
whose parsed chunk passes the guarded probe without yielding (a dict
without list-shaped `choices` content, or a string/list not containing
`"choices"`); but a line that is not valid UTF-8 aborts the loop as a
`StreamingError`-style interruption, and so does a parsed chunk on
which Python's `"choices" in chunk` / `chunk["choices"]` raises
`TypeError` (a number, bool or null chunk, or a string/list containing
`"choices"`); after either abort no later line is processed. -/
theorem C3_malformed_line_handling :
    (∀ (line : List Nat) rest count acc, utf8DecodeStrict line = none → line.isEmpty = false →
      runLoop (line :: rest) count acc = ⟨acc.reverse, false, .interrupted⟩) ∧
    (∀ (line : List Nat) rest count acc txt, line.isEmpty = false →
      utf8DecodeStrict line = some txt → pyStartsWith txt "data: " = true →
      (pyDrop txt 6 == "[DONE]") = false → jsonParse (pyDrop txt 6) = none →
      runLoop (line :: rest) count acc = runLoop rest count acc) ∧
    (∀ (line : List Nat) rest count acc txt chunk, line.isEmpty = false →
      utf8DecodeStrict line = some txt → pyStartsWith txt "data: " = true →
      (pyDrop txt 6 == "[DONE]") = false → jsonParse (pyDrop txt 6) = some chunk →
      extract_deltas chunk = some [] →
      runLoop (line :: rest) count acc = runLoop rest count acc) ∧
    (∀ (line : List Nat) rest count acc txt chunk, line.isEmpty = false →
      utf8DecodeStrict line = some txt → pyStartsWith txt "data: " = true →
      (pyDrop txt 6 == "[DONE]") = false → jsonParse (pyDrop txt 6) = some chunk →
      extract_deltas chunk = none →
      runLoop (line :: rest) count acc = ⟨acc.reverse, false, .interrupted⟩) := by
  refine ⟨?_, ?_, ?_, ?_⟩
  · intro line rest count acc hu he
    rw [runLoop]
    simp [he, hu]
  · intro line rest count acc txt he hu hs hd hj
    rw [runLoop]
    simp [he, hu, hs, hd, hj]
  · intro line rest count acc txt chunk he hu hs hd hj hx
    rw [runLoop]
    simp [he, hu, hs, hd, hj, hx]
  · intro line rest count acc txt chunk he hu hs hd hj hx
    rw [runLoop]
    simp [he, hu, hs, hd, hj, hx]

/-- C3 witness: the four amended behaviours at concrete lines — an
invalid UTF-8 byte aborts; `data: nope` (not JSON) is skipped; a parsed
empty-dict chunk is skipped; `data: 42` (TypeError on `in`) aborts. -/
theorem C3_malformed_line_handling_witness :
    runLoop [[255]] 0 [] = ⟨[], false, .interrupted⟩ ∧
    runLoop [strBytes "data: nope", strBytes "data: [DONE]"] 0 [] =
      runLoop [strBytes "data: [DONE]"] 0 [] ∧
    runLoop [strBytes "data: \x7b\x7d"] 3 [Json.str "x"] = runLoop [] 3 [Json.str "x"] ∧
    runLoop [strBytes "data: 42"] 2 [Json.str "y"] = ⟨[Json.str "y"].reverse, false, .interrupted⟩ :=
  ⟨C3_malformed_line_handling.1 [255] [] 0 [] rfl rfl,
   C3_malformed_line_handling.2.1 (strBytes "data: nope") [strBytes "data: [DONE]"] 0 []
     "data: nope" rfl rfl rfl rfl rfl,
   C3_malformed_line_handling.2.2.1 (strBytes "data: \x7b\x7d") [] 3 [Json.str "x"]
     "data: \x7b\x7d" (Json.obj []) rfl rfl rfl rfl rfl rfl,
   C3_malformed_line_handling.2.2.2 (strBytes "data: 42") [] 2 [Json.str "y"]
     "data: 42" (Json.num 42) rfl rfl rfl rfl rfl rfl⟩

/-- A choice dict that makes `extract_text` return: it is a dict, its
`message` (defaulted to `{}`) is a dict, and the message's `content`
(defaulted to `""`) is truthy. -/
def ChoiceHasContent (c : Json) : Prop :=
  c.isObj = true ∧
  ((jsonGet? c "message").getD (Json.obj [])).isObj = true ∧
  truthy ((jsonGet? ((jsonGet? c "message").getD (Json.obj [])) "content").getD (Json.str "")) = true

/-- A response dict in which some choice carries truthy content. -/
def HasContent (r : List (String × Json)) : Prop :=
  ∃ cs, assocLookup r "choices" = some (Json.arr cs) ∧ ∃ c ∈ cs, ChoiceHasContent c

lemma truthy_ne_empty {v : Json} (h : truthy v = true) : v ≠ Json.str "" := by
  intro he
  subst he
  simp [truthy] at h

lemma extractLoop_eq_empty_iff (cs : List Json) :
    extractLoop cs = Json.str "" ↔ ∀ c ∈ cs, ¬ ChoiceHasContent c := by
  induction cs with
  | nil => simp [extractLoop]
  | cons c rest ih =>
    by_cases h1 : c.isObj = true
    · by_cases h2 : ((jsonGet? c "message").getD (Json.obj [])).isObj = true
      · by_cases h3 :
          truthy ((jsonGet? ((jsonGet? c "message").getD (Json.obj [])) "content").getD (Json.str "")) = true
        · have he : extractLoop (c :: rest) =
              (jsonGet? ((jsonGet? c "message").getD (Json.obj [])) "content").getD (Json.str "") := by
            rw [extractLoop]
            simp [h1, h2, h3]
          rw [he]
          constructor
          · intro hx
            exact absurd hx (truthy_ne_empty h3)
          · intro hall
            exact absurd ⟨h1, h2, h3⟩ (hall c (List.mem_cons_self c rest))
        · have he : extractLoop (c :: rest) = extractLoop rest := by
            rw [extractLoop]
            simp [h1, h2, h3]
          rw [he, ih, List.forall_mem_cons]
          simp [ChoiceHasContent, h3]
      · have he : extractLoop (c :: rest) = extractLoop rest := by
          rw [extractLoop]
          simp [h1, h2]
        rw [he, ih, List.forall_mem_cons]
        simp [ChoiceHasContent, h2]
    · have he : extractLoop (c :: rest) = extractLoop rest := by
        rw [extractLoop]
        simp [h1]
      rw [he, ih, List.forall_mem_cons]
      simp [ChoiceHasContent, h1]

lemma extractLoop_truthy (cs : List Json) (h : ∃ c ∈ cs, ChoiceHasContent c) :
    truthy (extractLoop cs) = true := by
  induction cs with
  | nil => simp at h
  | cons c rest ih =>
    by_cases h1 : c.isObj = true
    · by_cases h2 : ((jsonGet? c "message").getD (Json.obj [])).isObj = true
      · by_cases h3 :
          truthy ((jsonGet? ((jsonGet? c "message").getD (Json.obj [])) "content").getD (Json.str "")) = true
        · have he : extractLoop (c :: rest) =
              (jsonGet? ((jsonGet? c "message").getD (Json.obj [])) "content").getD (Json.str "") := by
            rw [extractLoop]
            simp [h1, h2, h3]
          rw [he]
          exact h3
        · have he : extractLoop (c :: rest) = extractLoop rest := by
            rw [extractLoop]
            simp [h1, h2, h3]
          rw [he]
          refine ih ?_
          obtain ⟨x, hx, hcx⟩ := h
          rcases List.mem_cons.mp hx with hxc | hxr
          · exact absurd (hxc ▸ hcx).2.2 h3
          · exact ⟨x, hxr, hcx⟩
      · have he : extractLoop (c :: rest) = extractLoop rest := by
          rw [extractLoop]
          simp [h1, h2]
        rw [he]
        refine ih ?_
        obtain ⟨x, hx, hcx⟩ := h
        rcases List.mem_cons.mp hx with hxc | hxr
        · exact absurd (hxc ▸ hcx).2.1 h2
        · exact ⟨x, hxr, hcx⟩
    · have he : extractLoop (c :: rest) = extractLoop rest := by
        rw [extractLoop]
        simp [h1]
      rw [he]
      refine ih ?_
      obtain ⟨x, hx, hcx⟩ := h
      rcases List.mem_cons.mp hx with hxc | hxr
      · exact absurd (hxc ▸ hcx).1 h1
      · exact ⟨x, hxr, hcx⟩

/-- C6 counterexample: the claim says `extract_text` always returns a
string.  A malformed response whose `content` field is the (truthy)
number 42 makes the code return that number unchanged — Python's
`-> str` annotation is not enforced — so the returned value is not a
string. -/
theorem C6_counterexample :
    extract_text
      [("choices", Json.arr [Json.obj [("message", Json.obj [("content", Json.num 42)])]])] =
      Json.num 42 ∧
    Json.isStr (Json.num 42) = false :=
  ⟨rfl, rfl⟩

/-- C6 (amended): `extract_text` never raises on a response dict with
absent, wrongly-typed or malformed `choices`/`message`/`content`
fields (it is a total function of the dict); it returns the empty
string exactly when no choice carries a truthy `content` value; and
when some choice does, it returns that (truthy) value unchanged — which
is a string whenever the response is well-formed, but is handed back
as-is (not coerced to a string) when `content` holds a truthy
non-string value. -/
theorem C6_extract_text_total (r : List (String × Json)) :
    (extract_text r = Json.str "" ↔ ¬ HasContent r) ∧
    (HasContent r → truthy (extract_text r) = true) := by
  rcases hlk : assocLookup r "choices" with _ | j
  · have he : extract_text r = Json.str "" := by
      simp [extract_text, hlk]
    refine ⟨by simp [he, HasContent, hlk], ?_⟩
    rintro ⟨cs, hcs, -⟩
    rw [hlk] at hcs
    cases hcs
  · cases j with
    | arr cs =>
      have he : extract_text r = extractLoop cs := by
        simp [extract_text, hlk]
      have hhc : HasContent r ↔ ∃ c ∈ cs, ChoiceHasContent c := by
        simp only [HasContent, hlk, Option.some.injEq]
        constructor
        · rintro ⟨cs', hcs', hex⟩
          cases hcs'
          exact hex
        · intro hex
          exact ⟨cs, rfl, hex⟩
      rw [he, hhc, extractLoop_eq_empty_iff]
      refine ⟨by simp, extractLoop_truthy cs⟩
    | null =>
      have he : extract_text r = Json.str "" := by simp [extract_text, hlk]
      refine ⟨by simp [he, HasContent, hlk], ?_⟩
      rintro ⟨cs, hcs, -⟩
      rw [hlk] at hcs
      cases hcs
    | bool b =>
      have he : extract_text r = Json.str "" := by simp [extract_text, hlk]
      refine ⟨by simp [he, HasContent, hlk], ?_⟩
      rintro ⟨cs, hcs, -⟩
      rw [hlk] at hcs
      cases hcs
    | num n =>
      have he : extract_text r = Json.str "" := by simp [extract_text, hlk]
      refine ⟨by simp [he, HasContent, hlk], ?_⟩
      rintro ⟨cs, hcs, -⟩
      rw [hlk] at hcs
      cases hcs
    | fnum m e =>
      have he : extract_text r = Json.str "" := by simp [extract_text, hlk]
      refine ⟨by simp [he, HasContent, hlk], ?_⟩
      rintro ⟨cs, hcs, -⟩
      rw [hlk] at hcs
      cases hcs
    | nonfinite s =>
      have he : extract_text r = Json.str "" := by simp [extract_text, hlk]
      refine ⟨by simp [he, HasContent, hlk], ?_⟩
      rintro ⟨cs, hcs, -⟩
      rw [hlk] at hcs
      cases hcs
    | str s =>
      have he : extract_text r = Json.str "" := by simp [extract_text, hlk]
      refine ⟨by simp [he, HasContent, hlk], ?_⟩
      rintro ⟨cs, hcs, -⟩
      rw [hlk] at hcs
      cases hcs
    | obj fields =>
      have he : extract_text r = Json.str "" := by simp [extract_text, hlk]
      refine ⟨by simp [he, HasContent, hlk], ?_⟩
      rintro ⟨cs, hcs, -⟩
      rw [hlk] at hcs
      cases hcs

/-- C6 witness: a well-formed response with string content is truthy
after extraction (and in particular non-empty). -/
theorem C6_extract_text_total_witness :
    truthy (extract_text
      [("choices", Json.arr [Json.obj [("message", Json.obj [("content", Json.str "ok")])]])]) =
      true :=
  (C6_extract_text_total
      [("choices", Json.arr [Json.obj [("message", Json.obj [("content", Json.str "ok")])]])]).2
    ⟨[Json.obj [("message", Json.obj [("content", Json.str "ok")])]], rfl,
     Json.obj [("message", Json.obj [("content", Json.str "ok")])],
     List.mem_singleton_self _, rfl, rfl, rfl⟩

/-- C8: every outbound request of `query` and of `stream` carries
exactly the headers of `_build_headers`, which include
`X-OpenAI-No-Store: true`; no caller-supplied input (api key, config,
prompt, attachment, transport behaviour) can remove or alter it. -/
theorem C8_zdr_header_always_sent (api_key : String) (cfg : OpenAIConfig) (p : String)
    (sys : Option String) (fd : Option FileData) (t : HttpResult) (ts : StreamHttp) :
    (query api_key cfg p sys fd t).sent.headers = build_headers api_key ∧
    (stream api_key cfg p sys fd ts).sent.headers = build_headers api_key ∧
    assocLookup (build_headers api_key) "X-OpenAI-No-Store" = some "true" :=
  ⟨rfl, rfl, rfl⟩

/-! ### C9: the signing round trip and its pigeonhole limit -/

lemma foldl_digest_lt :
    ∀ (l : List Nat) (acc B : Nat), acc < B →
      l.foldl (fun acc w => acc * 4294967296 + w % 4294967296) acc < B * 4294967296 ^ l.length := by
  intro l
  induction l with
  | nil =>
    intro acc B h
    simpa using h
  | cons w ws ih =>
    intro acc B h
    have hstep : acc * 4294967296 + w % 4294967296 < B * 4294967296 := by
      calc acc * 4294967296 + w % 4294967296
          < acc * 4294967296 + 4294967296 :=
            Nat.add_lt_add_left (Nat.mod_lt _ (by norm_num)) _
        _ = (acc + 1) * 4294967296 := by ring
        _ ≤ B * 4294967296 := Nat.mul_le_mul_right _ h
    have hrec := ih _ (B * 4294967296) hstep
    calc (w :: ws).foldl (fun acc w => acc * 4294967296 + w % 4294967296) acc
        = ws.foldl (fun acc w => acc * 4294967296 + w % 4294967296)
            (acc * 4294967296 + w % 4294967296) := rfl
      _ < (B * 4294967296) * 4294967296 ^ ws.length := hrec
      _ = B * 4294967296 ^ (w :: ws).length := by
          rw [List.length_cons, pow_succ]
          ring

lemma hDigest_lt (s : H8) : hDigest s < 2 ^ 256 := by
  have h := foldl_digest_lt [s.a, s.b, s.c, s.d, s.e, s.f, s.g, s.h] 0 1 (by norm_num)
  calc hDigest s < 1 * 4294967296 ^ 8 := h
    _ = 2 ^ 256 := by norm_num

lemma hmacSha256_lt (k m : List Nat) : hmacSha256 k m < 2 ^ 256 := by
  simp only [hmacSha256, sha256Nat]
  exact hDigest_lt _

lemma hexChar_inj {a b : Nat} (ha : a < 16) (hb : b < 16) (h : hexChar a = hexChar b) :
    a = b := by
  have hall : ∀ x, x < 16 → ∀ y, y < 16 → hexChar x = hexChar y → x = y := by decide
  exact hall a ha b hb h

lemma digits_eq_of_shift :
    ∀ (k n m : Nat), n < 16 ^ k → m < 16 ^ k →
      (∀ i < k, (n >>> (4 * i)) % 16 = (m >>> (4 * i)) % 16) → n = m := by
  intro k
  induction k with
  | zero =>
    intro n m hn hm _
    rw [pow_zero] at hn hm
    omega
  | succ k ih =>
    intro n m hn hm hd
    have h0 := hd 0 (Nat.succ_pos k)
    simp [Nat.shiftRight_eq_div_pow] at h0
    have hrec : n / 16 = m / 16 := by
      refine ih (n / 16) (m / 16) ?_ ?_ ?_
      · rw [Nat.div_lt_iff_lt_mul (by norm_num)]
        calc n < 16 ^ (k + 1) := hn
          _ = 16 ^ k * 16 := by rw [pow_succ]
      · rw [Nat.div_lt_iff_lt_mul (by norm_num)]
        calc m < 16 ^ (k + 1) := hm
          _ = 16 ^ k * 16 := by rw [pow_succ]
      · intro i hi
        have hstep := hd (i + 1) (by omega)
        have hshift : ∀ x : Nat, x >>> (4 * (i + 1)) = (x / 16) >>> (4 * i) := by
          intro x
          rw [show 4 * (i + 1) = 4 + 4 * i by ring, Nat.shiftRight_add]
          congr 1
          rw [Nat.shiftRight_eq_div_pow]
        rw [hshift n, hshift m] at hstep
        exact hstep
    omega

lemma toHex64_inj {n m : Nat} (hn : n < 2 ^ 256) (hm : m < 2 ^ 256)
    (h : toHex64 n = toHex64 m) : n = m := by
  have hlist : (List.range 64).map (fun i => hexChar ((n >>> (4 * (63 - i))) % 16)) =
      (List.range 64).map (fun i => hexChar ((m >>> (4 * (63 - i))) % 16)) := by
    have := congrArg String.data h
    simpa [toHex64] using this
  have hdig : ∀ i < 64, (n >>> (4 * i)) % 16 = (m >>> (4 * i)) % 16 := by
    intro i hi
    have h63 : 63 - i < 64 := by omega
    have hj := congrArg (fun l => l[63 - i]?) hlist
    simp only [List.getElem?_map, List.getElem?_range h63, Option.map_some] at hj
    have := Option.some.inj hj
    have hle : i ≤ 63 := by omega
    simp only [Nat.sub_sub_self hle] at this
    exact hexChar_inj (Nat.mod_lt _ (by norm_num)) (Nat.mod_lt _ (by norm_num)) this
  exact digits_eq_of_shift 64 n m (by norm_num at hn ⊢; exact hn) (by norm_num at hm ⊢; exact hm) hdig

lemma unary_prefix_inj :
    ∀ (n m : Nat) (x y : List Char),
      List.replicate n 'a' ++ ':' :: x = List.replicate m 'a' ++ ':' :: y → n = m ∧ x = y := by
  intro n
  induction n with
  | zero =>
    intro m x y h
    cases m with
    | zero =>
      simp at h
      exact ⟨rfl, h⟩
    | succ m => simp [List.replicate_succ] at h
  | succ n ih =>
    intro m x y h
    cases m with
    | zero => simp [List.replicate_succ] at h
    | succ m =>
      simp only [List.replicate_succ, List.cons_append, List.cons.injEq, true_and] at h
      obtain ⟨hnm, hxy⟩ := ih m x y h
      exact ⟨by omega, hxy⟩

lemma encField_append_inj (s t : String) (r r' : List Char)
    (h : encField s ++ r = encField t ++ r') : s = t ∧ r = r' := by
  unfold encField at h
  simp only [List.append_assoc, List.cons_append] at h
  obtain ⟨hlen, happ⟩ := unary_prefix_inj s.data.length t.data.length _ _ h
  obtain ⟨hdata, hrr⟩ := List.append_inj happ hlen
  exact ⟨String.ext hdata, hrr⟩

lemma canonicalFields_inj (f f' : SignFields) (h : canonicalFields f = canonicalFields f') :
    f = f' := by
  obtain ⟨p, ms, mo, u, o⟩ := f
  obtain ⟨p', ms', mo', u', o'⟩ := f'
  unfold canonicalFields at h
  have hdata := congrArg String.data h
  simp only [List.append_assoc] at hdata
  obtain ⟨h1, hrest⟩ := encField_append_inj _ _ _ _ hdata
  obtain ⟨h2, hrest2⟩ := encField_append_inj _ _ _ _ hrest
  obtain ⟨h3, hrest3⟩ := encField_append_inj _ _ _ _ hrest2
  obtain ⟨h4, hrest4⟩ := encField_append_inj _ _ _ _ hrest3
  have ho : o = o' := by
    cases o with
    | none =>
      cases o' with
      | none => rfl
      | some v => simp [encField] at hrest4
    | some v =>
      cases o' with
      | none => simp [encField] at hrest4
      | some v' =>
        simp only [List.cons.injEq, true_and] at hrest4
        have := encField_append_inj v v' [] [] (by simpa using hrest4)
        rw [this.1]
  subst h1 h2 h3 h4 ho
  rfl

/-- C9 (amended): `verify(sign(f, k), f, k)` is true for every field
set and key; canonicalization is injective, so changing any field
changes the canonical string; and a signature for `f` verifies against
a modified field set `f'` only if HMAC-SHA256 collides on the two
canonical strings — such collisions exist mathematically (see the
counterexample, by pigeonhole on the 256-bit output) but none is
computationally findable, which is the avalanche property the spec
expects. -/
theorem C9_sign_verify_roundtrip :
    (∀ (f : SignFields) (k : String), verify_signature (sign_request k f) k f = true) ∧
    (∀ f f' : SignFields, canonicalFields f = canonicalFields f' → f = f') ∧
    (∀ (f f' : SignFields) (k : String), verify_signature (sign_request k f) k f' = true →
      hmacSha256 (utf8Encode k) (utf8Encode (canonicalFields f')) =
        hmacSha256 (utf8Encode k) (utf8Encode (canonicalFields f))) := by
  refine ⟨?_, canonicalFields_inj, ?_⟩
  · intro f k
    simp [verify_signature]
  · intro f f' k h
    simp only [verify_signature, sign_request, beq_iff_eq] at h
    exact toHex64_inj (hmacSha256_lt _ _) (hmacSha256_lt _ _) h.symm

/-- C9 witness: the amended statement instantiated at a concrete field
set and key — the round trip verifies, and the collision conclusion is
discharged via the round trip itself. -/
theorem C9_sign_verify_roundtrip_witness :
    verify_signature
      (sign_request "super-secret-key-12345" ⟨"openai", "Analyze my data", "gpt-4o", "user_123", some "org_456"⟩)
      "super-secret-key-12345" ⟨"openai", "Analyze my data", "gpt-4o", "user_123", some "org_456"⟩ = true ∧
    (⟨"openai", "Analyze my data", "gpt-4o", "user_123", some "org_456"⟩ : SignFields) =
      ⟨"openai", "Analyze my data", "gpt-4o", "user_123", some "org_456"⟩ ∧
    hmacSha256 (utf8Encode "super-secret-key-12345")
        (utf8Encode (canonicalFields ⟨"openai", "Analyze my data", "gpt-4o", "user_123", some "org_456"⟩)) =
      hmacSha256 (utf8Encode "super-secret-key-12345")
        (utf8Encode (canonicalFields ⟨"openai", "Analyze my data", "gpt-4o", "user_123", some "org_456"⟩)) :=
  ⟨C9_sign_verify_roundtrip.1 _ "super-secret-key-12345",
   C9_sign_verify_roundtrip.2.1 _ _ rfl,
   C9_sign_verify_roundtrip.2.2 _ _ "super-secret-key-12345"
     (C9_sign_verify_roundtrip.1 _ "super-secret-key-12345")⟩

/-- C9 counterexample: the claim — that changing a single field always
makes verification fail — is false as a universal statement: since the
signature has only 2^256 possible values, by pigeonhole there exist two
distinct messages (all other fields equal, so the field sets differ in
the single `message` field) whose signatures under the demo's key
coincide, and the one's signature verifies against the other's fields.
No such pair is computable, which is exactly why the amended claim
states the property modulo HMAC collisions. -/
theorem C9_counterexample :
    ∃ m₁ m₂ : String, m₁ ≠ m₂ ∧
      verify_signature
        (sign_request "super-secret-key-12345" ⟨"openai", m₁, "gpt-4o", "user_123", some "org_456"⟩)
        "super-secret-key-12345" ⟨"openai", m₂, "gpt-4o", "user_123", some "org_456"⟩ = true := by
  classical
  have hcard : Fintype.card (Fin (2 ^ 256)) < Fintype.card (Fin (2 ^ 256 + 1)) := by
    rw [Fintype.card_fin, Fintype.card_fin]
    exact Nat.lt_succ_self _
  obtain ⟨i, j, hne, heq⟩ :=
    Fintype.exists_ne_map_eq_of_card_lt
      (fun i : Fin (2 ^ 256 + 1) =>
        (⟨hmacSha256 (utf8Encode "super-secret-key-12345")
            (utf8Encode (canonicalFields
              ⟨"openai", String.mk (List.replicate i.1 'b'), "gpt-4o", "user_123", some "org_456"⟩)),
          hmacSha256_lt _ _⟩ : Fin (2 ^ 256)))
      hcard
  refine ⟨String.mk (List.replicate i.1 'b'), String.mk (List.replicate j.1 'b'), ?_, ?_⟩
  · intro hs
    apply hne
    have hdata : List.replicate i.1 'b' = List.replicate j.1 'b' := congrArg String.data hs
    have hlen := congrArg List.length hdata
    simp only [List.length_replicate] at hlen
    exact Fin.ext hlen
  · have hdig := congrArg Fin.val heq
    simp only at hdig
    simp only [verify_signature, sign_request, beq_iff_eq]
    exact congrArg toHex64 hdig

end MsgModel

